import Mathlib

/-!
Shallow embedding of `src/iemocap/build_iemocap_ekman_emoberta_splits.py`:
the pipeline that reads per-utterance JSON annotation files from the
EmoBERTa IEMOCAP raw-text splits, remaps the 11-class emotion vocabulary
into a 7-class Ekman-style scheme, and writes CSV splits.

The filesystem is modelled as a function from a directory path to an
optional directory listing (`none` = the directory does not exist); each
listing entry pairs a filename with its parsed JSON content (the three
fields the script reads via `data.get`).  Writing a CSV with
`df.to_csv(path, index=False, encoding="utf-8")` is modelled as producing
a `CsvFile` value recording the header (the DataFrame columns), the data
rows, and the `index`/`encoding` arguments of the call.
-/

namespace IemocapEkman

/-- Whitespace characters recognised by Python `str.strip` (the ASCII
subset: space, tab, newline, carriage return, vertical tab, form feed). -/
def isPySpace (c : Char) : Bool :=
  c = ' ' || c = '\t' || c = '\n' || c = '\r' || c = Char.ofNat 11 || c = Char.ofNat 12

/-- Python `str.strip()`: drop leading and trailing whitespace. -/
def pyStrip (s : String) : String :=
  String.mk (((s.toList.dropWhile isPySpace).reverse.dropWhile isPySpace).reverse)

/-- Python `str.lower()` (ASCII letters, which covers all corpus labels). -/
def pyLower (s : String) : String :=
  String.mk (s.toList.map Char.toLower)

/-- Check that the first list is an initial segment of the second. -/
def listStarts : List Char → List Char → Bool
  | [], _ => true
  | _ :: _, [] => false
  | p :: ps, c :: cs => p = c && listStarts ps cs

/-- Python `s.startswith(p)`. -/
def pyStartsWith (s p : String) : Bool :=
  listStarts p.toList s.toList

/-- Python `s.endswith(p)`. -/
def pyEndsWith (s p : String) : Bool :=
  listStarts p.toList.reverse s.toList.reverse

/-- Python `str.split(sep)` for a single-character separator, on a char
list: always at least one (possibly empty) field. -/
def pySplitChar (sep : Char) : List Char → List (List Char)
  | [] => [[]]
  | c :: cs =>
    if c = sep then [] :: pySplitChar sep cs
    else
      match pySplitChar sep cs with
      | [] => [[c]]
      | h :: t => (c :: h) :: t

/-- Python `utt_id.split("_")`. -/
def splitUnderscore (s : String) : List String :=
  (pySplitChar '_' s.toList).map String.mk

/-- Python `"_".join(parts)`. -/
def joinUnd : List String → String
  | [] => ""
  | [x] => x
  | x :: xs => x ++ "_" ++ joinUnd xs

/-- Scan a reversed character list for the first dot; return the
characters after it (still reversed), i.e. the part of the original
string before its last dot. -/
def beforeLastDot : List Char → Option (List Char)
  | [] => none
  | c :: cs => if c = '.' then some cs else beforeLastDot cs

/-- Root part of Python `os.path.splitext(fname)` for a bare filename:
split at the last dot unless every character before it is a dot
(leading dots do not start an extension). -/
def stemOf (fname : String) : String :=
  match beforeLastDot fname.toList.reverse with
  | none => fname
  | some revStem =>
    if revStem.any (fun c => c ≠ '.') then String.mk revStem.reverse else fname

/-- Python `os.path.join(a, b)` (posix, two components). -/
def osJoin (a b : String) : String :=
  if pyStartsWith b "/" then b
  else if a = "" || pyEndsWith a "/" then a ++ b
  else a ++ "/" ++ b

/-- A single-quote character, used in diagnostic messages. -/
def squote : String := String.mk [Char.ofNat 39]

/-- Parsed content of one per-utterance JSON file: the three fields the
script reads with `data.get` (absent field = `none`); unknown extra
fields are ignored by the script and hence not modelled. -/
structure JsonRecord where
  Utterance : Option String
  Emotion : Option String
  Speaker : Option String
deriving DecidableEq

/-- One output row, in the column order of the script. -/
structure Row where
  Split : String
  Dialogue_ID : String
  Utterance_ID : String
  Speaker : String
  Utterance : String
  Emotion : String
  Original_Emotion : String
deriving DecidableEq

/-- The `MAP_11_TO_7` dictionary: 11-class IEMOCAP label to 7-class
Ekman-style label; `undecided` and `other` are intentionally absent. -/
def MAP_11_TO_7 : String → Option String
  | "anger" => some "anger"
  | "frustration" => some "anger"
  | "sadness" => some "sadness"
  | "neutral" => some "neutral"
  | "happiness" => some "joy"
  | "excited" => some "joy"
  | "surprise" => some "surprise"
  | "fear" => some "fear"
  | "disgust" => some "disgust"
  | _ => none

/-- The value `str(data.get("Utterance", "")).strip()`. -/
def textOf (d : JsonRecord) : String := pyStrip (d.Utterance.getD "")

/-- The value `str(data.get("Emotion", "")).strip().lower()`. -/
def origEmotionOf (d : JsonRecord) : String := pyLower (pyStrip (d.Emotion.getD ""))

/-- The value `str(data.get("Speaker", "")).strip()` followed by the
`Female`/`Male` to `F`/`M` normalisation of the loop body. -/
def speakerOf (d : JsonRecord) : String :=
  let speaker_raw := pyStrip (d.Speaker.getD "")
  let s_lower := pyLower speaker_raw
  if pyStartsWith s_lower "f" then "F"
  else if pyStartsWith s_lower "m" then "M"
  else speaker_raw

/-- One iteration of the `for fname in os.listdir(split_dir)` loop of
`load_split`: at most one appended row, plus the warning lines printed. -/
def processEntry (split_name fname : String) (data : JsonRecord) :
    Option Row × List String :=
  if pyEndsWith fname ".json" = false then (none, [])
  else if (splitUnderscore (stemOf fname)).length < 2 then
    (none, ["[WARN] Unexpected utt_id format: " ++ stemOf fname])
  else
    match MAP_11_TO_7 (origEmotionOf data) with
    | none => (none, [])
    | some ekman_emotion =>
      (some ⟨split_name, joinUnd (splitUnderscore (stemOf fname)).dropLast,
             stemOf fname, speakerOf data, textOf data, ekman_emotion,
             origEmotionOf data⟩, [])

/-- A directory listing: filenames paired with their parsed JSON content. -/
abbrev DirListing := List (String × JsonRecord)

/-- The model of the filesystem seen by the script: a directory path maps
to its listing when `os.path.isdir` holds, else `none`. -/
abbrev FileSys := String → Option DirListing

/-- The whole directory loop of `load_split`, in listing order. -/
def processDir (split_name : String) : DirListing → List Row × List String
  | [] => ([], [])
  | (fname, data) :: rest =>
    let hd := processEntry split_name fname data
    let tl := processDir split_name rest
    (hd.1.toList ++ tl.1, hd.2 ++ tl.2)

/-- The result of `load_split`: the returned rows and the diagnostic
lines printed while loading. -/
structure LoadResult where
  rows : List Row
  logs : List String
deriving DecidableEq

/-- The function `load_split(split_dir, split_name)`. -/
def load_split (fs : FileSys) (split_dir split_name : String) : LoadResult :=
  match fs split_dir with
  | none => ⟨[], ["[WARN] Split directory not found: " ++ split_dir]⟩
  | some entries =>
    let pr := processDir split_name entries
    ⟨pr.1, ("[INFO] Processing split=" ++ squote ++ split_name ++ squote
            ++ " in " ++ split_dir) :: pr.2⟩

/-- One CSV written by `df.to_csv(path, index=False, encoding="utf-8")`:
header row (the DataFrame columns), data rows, and the two call
arguments. -/
structure CsvFile where
  header : List String
  rows : List Row
  index : Bool
  encoding : String
deriving DecidableEq

/-- The DataFrame columns: the keys of every row dict, in insertion
order. -/
def CSV_COLUMNS : List String :=
  ["Split", "Dialogue_ID", "Utterance_ID", "Speaker", "Utterance",
   "Emotion", "Original_Emotion"]

/-- Serialise a row list the way the script calls `to_csv`. -/
def toCsv (rows : List Row) : CsvFile :=
  ⟨CSV_COLUMNS, rows, false, "utf-8"⟩

/-- The fixed split order of `build_iemocap_ekman7`. -/
def splitNames : List String := ["train", "val", "test"]

/-- The accumulated `all_rows` list after the per-split loop. -/
def allRows (fs : FileSys) (raw_text_root : String) : List Row :=
  (splitNames.map (fun s => (load_split fs (osJoin raw_text_root s) s).rows)).flatten

/-- The function `build_iemocap_ekman7(raw_text_root, out_dir)`:
either the `RuntimeError` message (no files written), or the list of
`(path, csv)` pairs written, in write order. -/
def build_iemocap_ekman7 (fs : FileSys) (raw_text_root out_dir : String) :
    Except String (List (String × CsvFile)) :=
  let all_rows := allRows fs raw_text_root
  if all_rows.isEmpty then
    Except.error ("No utterances were loaded. Check RAW_TEXT_ROOT: " ++ raw_text_root)
  else
    Except.ok
      ((osJoin out_dir "iemocap_ekman7_emoberta_all.csv", toCsv all_rows) ::
        splitNames.map (fun s =>
          (osJoin out_dir ("iemocap_ekman7_emoberta_" ++ s ++ ".csv"),
            toCsv (all_rows.filter (fun r => r.Split == s)))))

/-- Number of output files of a run, when it succeeded. -/
def outFileCount (r : Except String (List (String × CsvFile))) : Option Nat :=
  r.toOption.map List.length

/-! ### Example inputs used to witness the theorems below -/

/-- A small example filesystem: a `train` directory with one mappable
utterance, one badly named file and one `undecided` utterance, plus empty
`val` and `test` directories. -/
def fsEx : FileSys := fun p =>
  if p = "/data/train" then
    some [("a_1.json", ⟨some "hi", some "Happiness", some "Female"⟩),
          ("b.json", ⟨some "x", some "anger", some "m"⟩),
          ("c_2.json", ⟨some " bye ", some "undecided", some "Male"⟩)]
  else if p = "/data/val" then some []
  else if p = "/data/test" then some []
  else none

/-- The single row the example filesystem produces. -/
def exRow : Row := ⟨"train", "a", "a_1", "F", "hi", "joy", "happiness"⟩

/-- The four files the example run writes. -/
def exFiles : List (String × CsvFile) :=
  [("/out/iemocap_ekman7_emoberta_all.csv", toCsv [exRow]),
   ("/out/iemocap_ekman7_emoberta_train.csv", toCsv [exRow]),
   ("/out/iemocap_ekman7_emoberta_val.csv", toCsv []),
   ("/out/iemocap_ekman7_emoberta_test.csv", toCsv [])]

/-- An example filesystem whose `train` directory is missing but whose
`val` directory holds one mappable utterance. -/
def fsValOnly : FileSys := fun p =>
  if p = "/data/val" then some [("a_1.json", ⟨some "hi", some "anger", some "Female"⟩)]
  else none

/-- Running the pipeline on the example filesystem writes the four
example files. -/
theorem build_fsEx :
    build_iemocap_ekman7 fsEx "/data" "/out" = Except.ok exFiles := by
  rfl

/-! ### Structural lemmas about the loader and the builder -/

/-- Characterisation of a row emitted by one loop iteration: the file had
the `.json` suffix, its stem split into at least two parts, and every
field of the row is the value the loop body computes. -/
theorem processEntry_some_spec {n f : String} {d : JsonRecord} {r : Row}
    (h : (processEntry n f d).1 = some r) :
    pyEndsWith f ".json" = true ∧
    2 ≤ (splitUnderscore (stemOf f)).length ∧
    r.Split = n ∧
    r.Utterance_ID = stemOf f ∧
    r.Dialogue_ID = joinUnd (splitUnderscore (stemOf f)).dropLast ∧
    r.Speaker = speakerOf d ∧
    r.Utterance = textOf d ∧
    r.Original_Emotion = origEmotionOf d ∧
    MAP_11_TO_7 r.Original_Emotion = some r.Emotion := by
  unfold processEntry at h
  split at h
  · simp at h
  · rename_i hjson
    split at h
    · simp at h
    · rename_i hlen
      split at h
      · simp at h
      · rename_i ek hek
        simp only [Option.some.injEq] at h
        subst h
        refine ⟨?_, by omega, rfl, rfl, rfl, rfl, rfl, rfl, ?_⟩
        · simpa using hjson
        · simpa using hek

/-- A loop iteration over an unmapped emotion label emits no row and no
warning. -/
theorem processEntry_unmapped {n f : String} {d : JsonRecord}
    (h : MAP_11_TO_7 (origEmotionOf d) = none) :
    (processEntry n f d).1 = none := by
  unfold processEntry
  split
  · rfl
  · split
    · rfl
    · rw [h]

/-- A `.json` file whose stem has fewer than two underscore-separated
parts is skipped with exactly the format warning. -/
theorem processEntry_short {n f : String} {d : JsonRecord}
    (hj : pyEndsWith f ".json" = true)
    (hl : (splitUnderscore (stemOf f)).length < 2) :
    processEntry n f d =
      (none, ["[WARN] Unexpected utt_id format: " ++ stemOf f]) := by
  unfold processEntry
  rw [if_neg (by simp [hj]), if_pos hl]

/-- A directory entry not ending in lowercase `.json` contributes nothing:
no row and no diagnostic line. -/
theorem processEntry_nonjson {n f : String} {d : JsonRecord}
    (h : pyEndsWith f ".json" = false) :
    processEntry n f d = (none, []) := by
  unfold processEntry
  rw [if_pos h]

/-- Every row produced by the directory loop comes from one listing entry
via `processEntry`. -/
theorem processDir_mem {n : String} {es : DirListing} {r : Row}
    (h : r ∈ (processDir n es).1) :
    ∃ f d, (f, d) ∈ es ∧ (processEntry n f d).1 = some r := by
  induction es with
  | nil => simp [processDir] at h
  | cons e rest ih =>
    obtain ⟨f, d⟩ := e
    simp only [processDir, List.mem_append] at h
    rcases h with h | h
    · rw [Option.mem_toList, Option.mem_def] at h
      exact ⟨f, d, List.mem_cons_self _ _, h⟩
    · obtain ⟨f2, d2, hmem, hpe⟩ := ih h
      exact ⟨f2, d2, List.mem_cons_of_mem _ hmem, hpe⟩

/-- Every row returned by `load_split` comes from an entry of the split
directory's listing via `processEntry`. -/
theorem load_split_rows_mem {fs : FileSys} {dir n : String} {r : Row}
    (h : r ∈ (load_split fs dir n).rows) :
    ∃ es f d, fs dir = some es ∧ (f, d) ∈ es ∧
      (processEntry n f d).1 = some r := by
  unfold load_split at h
  cases hfs : fs dir with
  | none => rw [hfs] at h; simp at h
  | some es =>
    rw [hfs] at h
    simp only at h
    obtain ⟨f, d, hmem, hpe⟩ := processDir_mem h
    exact ⟨es, f, d, rfl, hmem, hpe⟩

/-- Every accumulated row comes from one of the three splits. -/
theorem allRows_mem {fs : FileSys} {root : String} {r : Row}
    (h : r ∈ allRows fs root) :
    ∃ s, s ∈ splitNames ∧ r ∈ (load_split fs (osJoin root s) s).rows := by
  unfold allRows at h
  rw [List.mem_flatten] at h
  obtain ⟨l, hl, hrl⟩ := h
  rw [List.mem_map] at hl
  obtain ⟨s, hs, rfl⟩ := hl
  exact ⟨s, hs, hrl⟩

/-- Full provenance of an accumulated row: the split it came from, the
directory listing, and the listing entry whose iteration emitted it. -/
theorem allRows_prov {fs : FileSys} {root : String} {r : Row}
    (h : r ∈ allRows fs root) :
    ∃ s es f d, s ∈ splitNames ∧ fs (osJoin root s) = some es ∧
      (f, d) ∈ es ∧ (processEntry s f d).1 = some r := by
  obtain ⟨s, hs, hr⟩ := allRows_mem h
  obtain ⟨es, f, d, hfs, hmem, hpe⟩ := load_split_rows_mem hr
  exact ⟨s, es, f, d, hs, hfs, hmem, hpe⟩

/-- The split field of every accumulated row is one of the three split
names. -/
theorem allRows_split {fs : FileSys} {root : String} :
    ∀ r ∈ allRows fs root,
      r.Split = "train" ∨ r.Split = "val" ∨ r.Split = "test" := by
  intro r hr
  obtain ⟨s, es, f, d, hs, -, -, hpe⟩ := allRows_prov hr
  have hsp := (processEntry_some_spec hpe).2.2.1
  simp only [splitNames, List.mem_cons, List.not_mem_nil, or_false] at hs
  rcases hs with rfl | rfl | rfl
  · exact Or.inl hsp
  · exact Or.inr (Or.inl hsp)
  · exact Or.inr (Or.inr hsp)

/-- Shape of a successful run: the accumulated rows are nonempty and the
written files are the combined CSV followed by the three per-split
filtered CSVs. -/
theorem build_ok_eq {fs : FileSys} {root out : String}
    {files : List (String × CsvFile)}
    (h : build_iemocap_ekman7 fs root out = Except.ok files) :
    allRows fs root ≠ [] ∧
    files =
      (osJoin out "iemocap_ekman7_emoberta_all.csv", toCsv (allRows fs root)) ::
        splitNames.map (fun s =>
          (osJoin out ("iemocap_ekman7_emoberta_" ++ s ++ ".csv"),
            toCsv ((allRows fs root).filter (fun r => r.Split == s)))) := by
  simp only [build_iemocap_ekman7] at h
  split at h
  · exact Except.noConfusion h
  · rename_i hne
    refine ⟨by simpa [List.isEmpty_iff] using hne, ?_⟩
    injection h with h2
    exact h2.symm

/-- Every row of every written file is one of the accumulated rows. -/
theorem build_rows_mem {fs : FileSys} {root out : String}
    {files : List (String × CsvFile)}
    (h : build_iemocap_ekman7 fs root out = Except.ok files)
    {p : String × CsvFile} (hp : p ∈ files) {r : Row} (hr : r ∈ p.2.rows) :
    r ∈ allRows fs root := by
  obtain ⟨-, rfl⟩ := build_ok_eq h
  rcases List.mem_cons.mp hp with rfl | hp2
  · simpa [toCsv] using hr
  · rw [List.mem_map] at hp2
    obtain ⟨s, -, rfl⟩ := hp2
    simp only [toCsv] at hr
    exact (List.mem_filter.mp hr).1

/-- A list of rows whose split fields all lie in the three split names
has as many elements as its three split-filtered sublists together. -/
theorem length_filter_splits (l : List Row)
    (h : ∀ r ∈ l, r.Split = "train" ∨ r.Split = "val" ∨ r.Split = "test") :
    l.length =
      (l.filter (fun r => r.Split == "train")).length +
      (l.filter (fun r => r.Split == "val")).length +
      (l.filter (fun r => r.Split == "test")).length := by
  induction l with
  | nil => simp
  | cons a t ih =>
    have ht := ih (fun r hr => h r (List.mem_cons_of_mem _ hr))
    rcases h a (List.mem_cons_self _ _) with ha | ha | ha <;>
      simp [List.filter_cons, ha, ht] <;> omega

/-! ### Claim theorems -/

/-- C1: the label mapper sends each of the 9 table entries exactly to the
table's target (anger/frustration to anger, sadness to sadness, neutral
to neutral, happiness/excited to joy, surprise to surprise, fear to fear,
disgust to disgust); it has no entry for `undecided`, `other`, or any
other label, a record with an unmapped label is dropped by the loop, and
every row of every written output file carries a mapped label. -/
theorem C1_label_mapping :
    (MAP_11_TO_7 "anger" = some "anger" ∧
     MAP_11_TO_7 "frustration" = some "anger" ∧
     MAP_11_TO_7 "sadness" = some "sadness" ∧
     MAP_11_TO_7 "neutral" = some "neutral" ∧
     MAP_11_TO_7 "happiness" = some "joy" ∧
     MAP_11_TO_7 "excited" = some "joy" ∧
     MAP_11_TO_7 "surprise" = some "surprise" ∧
     MAP_11_TO_7 "fear" = some "fear" ∧
     MAP_11_TO_7 "disgust" = some "disgust") ∧
    (MAP_11_TO_7 "undecided" = none ∧ MAP_11_TO_7 "other" = none) ∧
    (∀ n f d, MAP_11_TO_7 (origEmotionOf d) = none →
      (processEntry n f d).1 = none) ∧
    (∀ fs root out files, build_iemocap_ekman7 fs root out = Except.ok files →
      ∀ p ∈ files, ∀ r ∈ p.2.rows,
        (MAP_11_TO_7 r.Original_Emotion).isSome = true) := by
  refine ⟨by decide, by decide, ?_, ?_⟩
  · intro n f d h
    exact processEntry_unmapped h
  · intro fs root out files h p hp r hr
    obtain ⟨s, es, f, d, -, -, -, hpe⟩ := allRows_prov (build_rows_mem h hp hr)
    rw [(processEntry_some_spec hpe).2.2.2.2.2.2.2.2]
    exact rfl

/-- Witness for C1 at concrete inputs: the `undecided` record of the
example filesystem is dropped, and the one row of the example run's
combined file carries a mapped label. -/
theorem C1_label_mapping_witness :
    (processEntry "train" "c_2.json" ⟨some " bye ", some "undecided", some "Male"⟩).1 = none ∧
    (MAP_11_TO_7 exRow.Original_Emotion).isSome = true :=
  ⟨C1_label_mapping.2.2.1 "train" "c_2.json"
     ⟨some " bye ", some "undecided", some "Male"⟩ (by decide),
   C1_label_mapping.2.2.2 fsEx "/data" "/out" exFiles build_fsEx
     ("/out/iemocap_ekman7_emoberta_all.csv", toCsv [exRow]) (by decide)
     exRow (by decide)⟩

/-- C2 counterexample: a successful run on the example filesystem writes
four output files, not five as the claim states. -/
theorem C2_file_count_counterexample :
    outFileCount (build_iemocap_ekman7 fsEx "/data" "/out") = some 4 ∧
    outFileCount (build_iemocap_ekman7 fsEx "/data" "/out") ≠ some 5 := by
  decide

/-- C2 (amended): whenever the run succeeds, exactly four output files
are written — the combined table plus the three per-split subsets — each
a delimited text file with a header row, UTF-8 encoding, and no row
index column. -/
theorem C2_output_files :
    ∀ fs root out files, build_iemocap_ekman7 fs root out = Except.ok files →
      files.length = 4 ∧
      ∀ p ∈ files, p.2.header = CSV_COLUMNS ∧ p.2.index = false ∧
        p.2.encoding = "utf-8" := by
  intro fs root out files h
  obtain ⟨-, rfl⟩ := build_ok_eq h
  refine ⟨by simp [splitNames], ?_⟩
  intro p hp
  rcases List.mem_cons.mp hp with rfl | hp2
  · exact ⟨rfl, rfl, rfl⟩
  · rw [List.mem_map] at hp2
    obtain ⟨s, -, rfl⟩ := hp2
    exact ⟨rfl, rfl, rfl⟩

/-- Witness for C2 at a concrete input: the example run succeeds and
writes exactly four files. -/
theorem C2_output_files_witness : exFiles.length = 4 :=
  (C2_output_files fsEx "/data" "/out" exFiles build_fsEx).1

/-- C3: every successful run writes four files, and the number of data
rows of the combined file equals the sum of the row counts of the train,
val and test files. -/
theorem C3_row_count_invariant :
    ∀ fs root out files, build_iemocap_ekman7 fs root out = Except.ok files →
      ∃ pAll pTrain pVal pTest, files = [pAll, pTrain, pVal, pTest] ∧
        pAll.2.rows.length =
          pTrain.2.rows.length + pVal.2.rows.length + pTest.2.rows.length := by
  intro fs root out files h
  obtain ⟨-, rfl⟩ := build_ok_eq h
  simp only [splitNames, List.map_cons, List.map_nil]
  refine ⟨_, _, _, _, rfl, ?_⟩
  simp only [toCsv]
  exact length_filter_splits _ (fun r hr => allRows_split r hr)

/-- Witness for C3 at a concrete input: the example run's combined file
has as many rows as its three split files together. -/
theorem C3_row_count_invariant_witness :
    ∃ pAll pTrain pVal pTest, exFiles = [pAll, pTrain, pVal, pTest] ∧
      pAll.2.rows.length =
        pTrain.2.rows.length + pVal.2.rows.length + pTest.2.rows.length :=
  C3_row_count_invariant fsEx "/data" "/out" exFiles build_fsEx

/-- C4: if the combined collection is empty after all three splits, the
run fails with the `RuntimeError` message naming the configured root
path, and no output file is produced. -/
theorem C4_empty_result_error :
    ∀ fs root out, allRows fs root = [] →
      build_iemocap_ekman7 fs root out =
        Except.error ("No utterances were loaded. Check RAW_TEXT_ROOT: " ++ root) := by
  intro fs root out h
  simp [build_iemocap_ekman7, h]

/-- Witness for C4 at a concrete input: on a filesystem with no
directories at all the run aborts with the error naming the root. -/
theorem C4_empty_result_error_witness :
    build_iemocap_ekman7 (fun _ => none) "/nowhere" "/out" =
      Except.error ("No utterances were loaded. Check RAW_TEXT_ROOT: " ++ "/nowhere") :=
  C4_empty_result_error (fun _ => none) "/nowhere" "/out" (by rfl)

/-- C5: every emitted record whose source filename stem has at least two
underscore-separated segments carries the full stem as `Utterance_ID`
and all segments but the last, rejoined with underscore, as
`Dialogue_ID`. -/
theorem C5_identifier_derivation :
    ∀ n f d r, 2 ≤ (splitUnderscore (stemOf f)).length →
      (processEntry n f d).1 = some r →
      r.Utterance_ID = stemOf f ∧
      r.Dialogue_ID = joinUnd (splitUnderscore (stemOf f)).dropLast := by
  intro n f d r _ h
  have hs := processEntry_some_spec h
  exact ⟨hs.2.2.2.1, hs.2.2.2.2.1⟩

/-- Witness for C5 at a concrete input with a four-segment stem. -/
theorem C5_identifier_derivation_witness :
    (⟨"train", "Ses05M_script01_1", "Ses05M_script01_1_F000", "M", "hi",
      "anger", "anger"⟩ : Row).Utterance_ID = stemOf "Ses05M_script01_1_F000.json" ∧
    (⟨"train", "Ses05M_script01_1", "Ses05M_script01_1_F000", "M", "hi",
      "anger", "anger"⟩ : Row).Dialogue_ID =
      joinUnd (splitUnderscore (stemOf "Ses05M_script01_1_F000.json")).dropLast :=
  C5_identifier_derivation "train" "Ses05M_script01_1_F000.json"
    ⟨some "hi", some "anger", some "Male"⟩ _ (by decide) (by decide)

/-- C6: a `.json` file whose stem has fewer than two underscore-separated
components is skipped with a warning; the loop goes on with the rest of
the listing, and no row of any written file carries such a stem as its
utterance id. -/
theorem C6_short_stem_skipped :
    (∀ n f d, pyEndsWith f ".json" = true →
      (splitUnderscore (stemOf f)).length < 2 →
      processEntry n f d =
        (none, ["[WARN] Unexpected utt_id format: " ++ stemOf f])) ∧
    (∀ n f d es, pyEndsWith f ".json" = true →
      (splitUnderscore (stemOf f)).length < 2 →
      processDir n ((f, d) :: es) =
        ((processDir n es).1,
         ("[WARN] Unexpected utt_id format: " ++ stemOf f) :: (processDir n es).2)) ∧
    (∀ fs root out files, build_iemocap_ekman7 fs root out = Except.ok files →
      ∀ stem, (splitUnderscore stem).length < 2 →
      ∀ p ∈ files, ∀ r ∈ p.2.rows, r.Utterance_ID ≠ stem) := by
  refine ⟨?_, ?_, ?_⟩
  · intro n f d hj hl
    exact processEntry_short hj hl
  · intro n f d es hj hl
    simp [processDir, processEntry_short hj hl]
  · intro fs root out files h stem hlen p hp r hr heq
    obtain ⟨s, es, f, d, -, -, -, hpe⟩ := allRows_prov (build_rows_mem h hp hr)
    have hs := processEntry_some_spec hpe
    rw [heq] at hs
    rw [hs.2.2.2.1] at hlen
    have h2 := hs.2.1
    omega

/-- Witness for C6 at concrete inputs: the one-segment file `b.json` of
the example filesystem is skipped with the warning while the loop
continues, and no row of the example run carries the stem `b`. -/
theorem C6_short_stem_skipped_witness :
    processEntry "train" "b.json" ⟨some "x", some "anger", some "m"⟩ =
      (none, ["[WARN] Unexpected utt_id format: " ++ stemOf "b.json"]) ∧
    exRow.Utterance_ID ≠ "b" :=
  ⟨C6_short_stem_skipped.1 "train" "b.json" ⟨some "x", some "anger", some "m"⟩
     (by decide) (by decide),
   C6_short_stem_skipped.2.2 fsEx "/data" "/out" exFiles build_fsEx "b" (by decide)
     ("/out/iemocap_ekman7_emoberta_all.csv", toCsv [exRow]) (by decide)
     exRow (by decide)⟩

/-- C7: a missing split directory makes the loader emit the not-found
warning and return zero rows, and as long as the combined collection is
nonempty the run still succeeds. -/
theorem C7_missing_split_dir :
    (∀ fs dir n, fs dir = none →
      load_split fs dir n =
        ⟨[], ["[WARN] Split directory not found: " ++ dir]⟩) ∧
    (∀ fs root out, allRows fs root ≠ [] →
      ∃ files, build_iemocap_ekman7 fs root out = Except.ok files) := by
  constructor
  · intro fs dir n h
    unfold load_split
    rw [h]
  · intro fs root out h
    cases hb : build_iemocap_ekman7 fs root out with
    | ok files => exact ⟨files, rfl⟩
    | error e =>
      exfalso
      simp only [build_iemocap_ekman7] at hb
      rw [if_neg (by simpa [List.isEmpty_iff] using h)] at hb
      exact Except.noConfusion hb

/-- Witness for C7 at a concrete input: with the train directory missing
but one utterance under val, the loader warns and yields no rows for
train, and the run still succeeds. -/
theorem C7_missing_split_dir_witness :
    load_split fsValOnly "/data/train" "train" =
      ⟨[], ["[WARN] Split directory not found: " ++ "/data/train"]⟩ ∧
    ∃ files, build_iemocap_ekman7 fsValOnly "/data" "/out" = Except.ok files :=
  ⟨C7_missing_split_dir.1 fsValOnly "/data/train" "train" (by rfl),
   C7_missing_split_dir.2 fsValOnly "/data" "/out" (by decide)⟩

/-- C8: every written file's header is exactly the seven columns Split,
Dialogue_ID, Utterance_ID, Speaker, Utterance, Emotion, Original_Emotion
in that order; in every row the Emotion field is the 7-class label the
table assigns to the Original_Emotion field, and the Original_Emotion
field is the lower-cased, trimmed source emotion of the JSON record the
row came from. -/
theorem C8_columns_and_labels :
    ∀ fs root out files, build_iemocap_ekman7 fs root out = Except.ok files →
      ∀ p ∈ files,
        p.2.header = ["Split", "Dialogue_ID", "Utterance_ID", "Speaker",
                      "Utterance", "Emotion", "Original_Emotion"] ∧
        ∀ r ∈ p.2.rows,
          MAP_11_TO_7 r.Original_Emotion = some r.Emotion ∧
          ∃ s es f d, s ∈ splitNames ∧ fs (osJoin root s) = some es ∧
            (f, d) ∈ es ∧ (processEntry s f d).1 = some r ∧
            r.Original_Emotion = pyLower (pyStrip (d.Emotion.getD "")) := by
  intro fs root out files h p hp
  constructor
  · obtain ⟨-, rfl⟩ := build_ok_eq h
    rcases List.mem_cons.mp hp with rfl | hp2
    · rfl
    · rw [List.mem_map] at hp2
      obtain ⟨s, -, rfl⟩ := hp2
      rfl
  · intro r hr
    obtain ⟨s, es, f, d, hs, hfs, hmem, hpe⟩ :=
      allRows_prov (build_rows_mem h hp hr)
    have hspec := processEntry_some_spec hpe
    exact ⟨hspec.2.2.2.2.2.2.2.2,
           s, es, f, d, hs, hfs, hmem, hpe, hspec.2.2.2.2.2.2.2.1⟩

/-- Witness for C8 at a concrete input: the combined file of the example
run has the seven columns and its one row satisfies the label facts. -/
theorem C8_columns_and_labels_witness :
    (toCsv [exRow]).header = ["Split", "Dialogue_ID", "Utterance_ID", "Speaker",
                              "Utterance", "Emotion", "Original_Emotion"] ∧
    MAP_11_TO_7 exRow.Original_Emotion = some exRow.Emotion :=
  ⟨(C8_columns_and_labels fsEx "/data" "/out" exFiles build_fsEx
      ("/out/iemocap_ekman7_emoberta_all.csv", toCsv [exRow]) (by decide)).1,
   ((C8_columns_and_labels fsEx "/data" "/out" exFiles build_fsEx
      ("/out/iemocap_ekman7_emoberta_all.csv", toCsv [exRow]) (by decide)).2
      exRow (by decide)).1⟩

/-- C9 counterexample: for a source record whose utterance content is
padded with spaces, the emitted Utterance field is the stripped text, not
the source field itself. -/
theorem C9_text_counterexample :
    ((processEntry "train" "a_1.json"
        ⟨some " hi ", some "anger", some "Female"⟩).1).map Row.Utterance =
      some "hi" ∧
    some "hi" ≠ some (" hi " : String) := by
  decide

/-- C9 (amended): for every retained record, the Utterance field equals
the whitespace-trimmed utterance-content field of the source record, and
equals the empty string when that field is absent. -/
theorem C9_text_trimmed :
    ∀ n f d r, (processEntry n f d).1 = some r →
      r.Utterance = pyStrip (d.Utterance.getD "") ∧
      (d.Utterance = none → r.Utterance = "") := by
  intro n f d r h
  have htext := (processEntry_some_spec h).2.2.2.2.2.2.1
  constructor
  · exact htext
  · intro hnone
    rw [htext]
    unfold textOf
    rw [hnone]
    rfl

/-- Witness for C9 at a concrete input: the example row's text equals
the stripped source content. -/
theorem C9_text_trimmed_witness :
    exRow.Utterance = pyStrip ((some "hi" : Option String).getD "") :=
  (C9_text_trimmed "train" "a_1.json" ⟨some "hi", some "Happiness", some "Female"⟩
    exRow (by decide)).1

/-- C10: a directory entry whose name does not end in the exact lowercase
suffix `.json` is skipped silently: no row and no diagnostic line, and
the loop over the rest of the listing is unchanged. -/
theorem C10_non_json_skipped :
    (∀ n f d, pyEndsWith f ".json" = false → processEntry n f d = (none, [])) ∧
    (∀ n f d es, pyEndsWith f ".json" = false →
      processDir n ((f, d) :: es) = processDir n es) := by
  constructor
  · intro n f d h
    exact processEntry_nonjson h
  · intro n f d es h
    simp [processDir, processEntry_nonjson h]

/-- Witness for C10 at a concrete input: an uppercase `.JSON` file is
skipped with no warning and leaves the loop unchanged. -/
theorem C10_non_json_skipped_witness :
    processEntry "train" "a_1.JSON" ⟨some "hi", some "anger", some "Female"⟩ =
      (none, []) ∧
    processDir "train" [("a_1.JSON", ⟨some "hi", some "anger", some "Female"⟩)] =
      processDir "train" [] :=
  ⟨C10_non_json_skipped.1 "train" "a_1.JSON"
     ⟨some "hi", some "anger", some "Female"⟩ (by decide),
   C10_non_json_skipped.2 "train" "a_1.JSON"
     ⟨some "hi", some "anger", some "Female"⟩ [] (by decide)⟩

end IemocapEkman
